import Mathlib

/-!
Verification of the PodcastGPT repository's streaming-response engine,
session controller and conversation store against its specification.

The definitions below are a shallow embedding of the TypeScript source:
  - `src/services/geminiService.ts` (the incremental streaming parse loop,
    salvage pass, fallback notice, credential resolution),
  - `src/pages/Index.tsx` (submission handling, title derivation, busy-guard),
  - the conversation store module (`deleteConversation` and friends).

Strings are modelled as `List Char`; the byte stream is modelled at
character granularity (the source's `TextDecoder` with `stream: true`
makes byte-level chunk splits indistinguishable from character-level ones
for the emitted output).  JavaScript's `JSON.parse` is embedded as an
executable JSON reader over the same grammar.
-/

/-- Whitespace removed by JavaScript's `String.prototype.trim` (the common
ASCII part; exotic Unicode space characters do not occur in the inputs). -/
def isJsWs (c : Char) : Bool :=
  c = ' ' || c = '\t' || c = '\n' || c = '\r' || c = '\x0b' || c = '\x0c'

/-- Whitespace accepted between tokens by `JSON.parse` (ECMA-404). -/
def isJsonWs (c : Char) : Bool :=
  c = ' ' || c = '\t' || c = '\n' || c = '\r'

/-- `s.trim()` on a character list. -/
def trimChars (s : List Char) : List Char :=
  ((s.dropWhile isJsWs).reverse.dropWhile isJsWs).reverse

def skipWs (s : List Char) : List Char := s.dropWhile isJsonWs

/-- Helper for `splitCN`: accumulates the current fragment (reversed). -/
def splitCNGo : List Char → List Char → List (List Char)
  | [], acc => [acc.reverse]
  | '\n' :: rest, acc =>
      (match acc with
       | ',' :: acc' => acc'.reverse
       | _ => acc.reverse) :: splitCNGo rest []
  | c :: rest, acc => splitCNGo rest (c :: acc)

/-- `fullJsonStr.split(/,?\n/)`: split at each newline, letting the
separator swallow one comma immediately preceding the newline
(geminiService.ts line 259). -/
def splitCN (s : List Char) : List (List Char) := splitCNGo s []

/-- JSON values as produced by `JSON.parse`.  Numbers only record whether
their mantissa is zero, which is all the source ever observes of them
(JavaScript truthiness). -/
inductive Json where
  | null
  | bool (b : Bool)
  | num (isZero : Bool)
  | str (s : List Char)
  | arr (xs : List Json)
  | obj (fields : List (List Char × Json))
deriving Inhabited

def hexVal (c : Char) : Option Nat :=
  if '0' ≤ c ∧ c ≤ '9' then some (c.toNat - '0'.toNat)
  else if 'a' ≤ c ∧ c ≤ 'f' then some (c.toNat - 'a'.toNat + 10)
  else if 'A' ≤ c ∧ c ≤ 'F' then some (c.toNat - 'A'.toNat + 10)
  else none

/-- Body of a JSON string literal, after the opening quote: decodes
escapes, rejects raw control characters, returns the decoded characters
and the input following the closing quote. -/
def parseStringBody : List Char → Option (List Char × List Char)
  | '"' :: r => some ([], r)
  | '\\' :: '"' :: r => (parseStringBody r).map (fun p => ('"' :: p.1, p.2))
  | '\\' :: '\\' :: r => (parseStringBody r).map (fun p => ('\\' :: p.1, p.2))
  | '\\' :: '/' :: r => (parseStringBody r).map (fun p => ('/' :: p.1, p.2))
  | '\\' :: 'b' :: r => (parseStringBody r).map (fun p => ('\x08' :: p.1, p.2))
  | '\\' :: 'f' :: r => (parseStringBody r).map (fun p => ('\x0c' :: p.1, p.2))
  | '\\' :: 'n' :: r => (parseStringBody r).map (fun p => ('\n' :: p.1, p.2))
  | '\\' :: 'r' :: r => (parseStringBody r).map (fun p => ('\r' :: p.1, p.2))
  | '\\' :: 't' :: r => (parseStringBody r).map (fun p => ('\t' :: p.1, p.2))
  | '\\' :: 'u' :: h1 :: h2 :: h3 :: h4 :: r =>
      match hexVal h1, hexVal h2, hexVal h3, hexVal h4 with
      | some a, some b, some c, some d =>
          (parseStringBody r).map
            (fun p => (Char.ofNat (((a * 16 + b) * 16 + c) * 16 + d) :: p.1, p.2))
      | _, _, _, _ => none
  | '\\' :: _ => none
  | c :: r => if c.toNat < 32 then none
              else (parseStringBody r).map (fun p => (c :: p.1, p.2))
  | [] => none

def parseExpRest (r : List Char) : Option (List Char) :=
  let r1 := match r with
    | '+' :: t => t
    | '-' :: t => t
    | _ => r
  let ds := r1.takeWhile Char.isDigit
  if ds.isEmpty then none else some (r1.drop ds.length)

/-- Optional exponent part of a JSON number; returns the remaining input. -/
def parseExp : List Char → Option (List Char)
  | 'e' :: r => parseExpRest r
  | 'E' :: r => parseExpRest r
  | s => some s

/-- Optional fraction part of a JSON number; returns the fraction digits
and the remaining input. -/
def parseFrac : List Char → Option (List Char × List Char)
  | '.' :: r =>
      let ds := r.takeWhile Char.isDigit
      if ds.isEmpty then none else some (ds, r.drop ds.length)
  | s => some ([], s)

/-- JSON number (`-?(0|[1-9][0-9]*)(\.[0-9]+)?([eE][+-]?[0-9]+)?`); only
zero-ness of the mantissa is retained. -/
def parseNum (s : List Char) : Option (Json × List Char) :=
  let s1 := match s with
    | '-' :: r => r
    | _ => s
  let intRes : Option (List Char × List Char) :=
    match s1 with
    | '0' :: r => some (['0'], r)
    | c :: r =>
        if c.isDigit && c ≠ '0' then
          let ds := r.takeWhile Char.isDigit
          some (c :: ds, r.drop ds.length)
        else none
    | [] => none
  match intRes with
  | none => none
  | some (intDs, s2) =>
      match parseFrac s2 with
      | none => none
      | some (fracDs, s3) =>
          match parseExp s3 with
          | none => none
          | some s4 => some (Json.num ((intDs ++ fracDs).all (· = '0')), s4)

mutual

/-- One JSON value, fuelled; leading JSON whitespace is skipped. -/
def parseVal (fuel : Nat) (s : List Char) : Option (Json × List Char) :=
  match fuel with
  | 0 => none
  | Nat.succ f =>
      match skipWs s with
      | '\x7b' :: rest => parseObjBody f (skipWs rest)
      | '[' :: rest => parseArrBody f (skipWs rest)
      | '"' :: rest => (parseStringBody rest).map (fun p => (Json.str p.1, p.2))
      | 't' :: 'r' :: 'u' :: 'e' :: r => some (Json.bool true, r)
      | 'f' :: 'a' :: 'l' :: 's' :: 'e' :: r => some (Json.bool false, r)
      | 'n' :: 'u' :: 'l' :: 'l' :: r => some (Json.null, r)
      | other => parseNum other

/-- Object body after the opening brace and whitespace. -/
def parseObjBody (fuel : Nat) (s : List Char) : Option (Json × List Char) :=
  match fuel with
  | 0 => none
  | Nat.succ f =>
      match s with
      | '\x7d' :: r => some (Json.obj [], r)
      | _ =>
          match parseMembers f s with
          | some (ms, r) => some (Json.obj ms, r)
          | none => none

/-- One or more `"key": value` members, with the closing brace. -/
def parseMembers (fuel : Nat) (s : List Char) :
    Option (List (List Char × Json) × List Char) :=
  match fuel with
  | 0 => none
  | Nat.succ f =>
      match skipWs s with
      | '"' :: r =>
          match parseStringBody r with
          | none => none
          | some (k, r2) =>
              match skipWs r2 with
              | ':' :: r3 =>
                  match parseVal f r3 with
                  | none => none
                  | some (v, r4) =>
                      match skipWs r4 with
                      | ',' :: r5 =>
                          match parseMembers f r5 with
                          | some (ms, r6) => some ((k, v) :: ms, r6)
                          | none => none
                      | '\x7d' :: r5 => some ([(k, v)], r5)
                      | _ => none
              | _ => none
      | _ => none

/-- Array body after the opening bracket and whitespace. -/
def parseArrBody (fuel : Nat) (s : List Char) : Option (Json × List Char) :=
  match fuel with
  | 0 => none
  | Nat.succ f =>
      match s with
      | ']' :: r => some (Json.arr [], r)
      | _ =>
          match parseElems f s with
          | some (es, r) => some (Json.arr es, r)
          | none => none

/-- One or more array elements, with the closing bracket. -/
def parseElems (fuel : Nat) (s : List Char) : Option (List Json × List Char) :=
  match fuel with
  | 0 => none
  | Nat.succ f =>
      match parseVal f s with
      | none => none
      | some (v, r) =>
          match skipWs r with
          | ',' :: r2 =>
              match parseElems f r2 with
              | some (es, r3) => some (v :: es, r3)
              | none => none
          | ']' :: r2 => some ([v], r2)
          | _ => none

end

/-- `JSON.parse`: a single value with nothing but whitespace after it.
The fuel `4 * length + 4` dominates the recursion depth (at most three
fuel units are spent per consumed character). -/
def jsonParse (s : List Char) : Option Json :=
  match parseVal (4 * s.length + 4) s with
  | some (j, rest) => if skipWs rest = [] then some j else none
  | none => none

/-- JavaScript truthiness of a parsed JSON value. -/
def truthy : Json → Bool
  | Json.null => false
  | Json.bool b => b
  | Json.num isZero => !isZero
  | Json.str s => !s.isEmpty
  | Json.arr _ => true
  | Json.obj _ => true

/-- Property lookup `obj.key`: on a parsed object the last duplicate key
wins (as with `JSON.parse`); on every other value the result is
`undefined` (`none`). -/
def assocLast : List (List Char × Json) → List Char → Option Json
  | [], _ => none
  | (k', v) :: rest, k =>
      match assocLast rest k with
      | some r => some r
      | none => if k' = k then some v else none

def getField (j : Json) (k : List Char) : Option Json :=
  match j with
  | Json.obj fs => assocLast fs k
  | _ => none

/-- Indexing `v[0]` as JavaScript evaluates it on a parsed JSON value:
first element of an array, property `"0"` of an object, first character
of a string, `undefined` otherwise. -/
def index0 : Json → Option Json
  | Json.arr (x :: _) => some x
  | Json.obj fs => assocLast fs ['0']
  | Json.str (c :: _) => some (Json.str [c])
  | _ => none

def candidatesKey : List Char := "candidates".toList
def contentKey : List Char := "content".toList
def partsKey : List Char := "parts".toList
def textKey : List Char := "text".toList

/-- The guarded access chain of geminiService.ts lines 270-276:
`jsonObject.candidates && jsonObject.candidates[0] &&
 jsonObject.candidates[0].content && jsonObject.candidates[0].content.parts
 && jsonObject.candidates[0].content.parts[0].text`.
Each `&&` step requires a truthy value; a property access that throws on
`undefined` is caught by the surrounding `catch` and, like a falsy result,
leads to no emission, so both are `none` here. -/
def textTarget (j : Json) : Option Json :=
  match getField j candidatesKey with
  | none => none
  | some c =>
      if truthy c then
        match index0 c with
        | none => none
        | some c0 =>
            if truthy c0 then
              match getField c0 contentKey with
              | none => none
              | some ct =>
                  if truthy ct then
                    match getField ct partsKey with
                    | none => none
                    | some ps =>
                        if truthy ps then
                          match index0 ps with
                          | none => none
                          | some p0 => getField p0 textKey
                        else none
                  else none
            else none
      else none

/-- The emitted text of a record: the value at the structural path, when
it is a truthy (hence non-empty) string.  The streamed records carry
string payloads; a non-string truthy `text` value, which JavaScript would
coerce on concatenation, does not occur and is modelled as absent. -/
def getTextPayload (j : Json) : Option (List Char) :=
  match textTarget j with
  | some (Json.str (c :: cs)) => some (c :: cs)
  | _ => none

/-- Does `pat` occur at the head of `s`? -/
def listStartsWith : List Char → List Char → Bool
  | _, [] => true
  | [], _ :: _ => false
  | a :: as, b :: bs => a = b && listStartsWith as bs

/-- `s.indexOf(pat)`: position of the first occurrence, `none` standing
for JavaScript's `-1`. -/
def indexOfSub (s pat : List Char) : Option Nat :=
  if listStartsWith s pat then some 0
  else
    match s with
    | [] => none
    | _ :: rest => (indexOfSub rest pat).map (· + 1)

/-- The mutable state of the read loop (geminiService.ts lines 244-245),
together with the trace of `onChunk` callback invocations. -/
structure LoopState where
  responseText : List Char
  fullJsonStr : List Char
  emitted : List (List Char)
deriving Repr, DecidableEq

def initialLoopState : LoopState := ⟨[], [], []⟩

/-- The emit-and-advance step of the `for` loop (geminiService.ts lines
276-282): emit the text payload and advance the buffer to
`fullJsonStr.substring(fullJsonStr.indexOf(jsonStr) + jsonStr.length +
(i < len-1 ? 1 : 0))`, where `indexOf` yields `-1` when absent and
`substring` clamps a negative start to 0. -/
def emitAdvance (total i : Nat) (st : LoopState) (jsonStr textChunk : List Char) :
    LoopState :=
  let processedLength := jsonStr.length + (if i < total - 1 then 1 else 0)
  let idx : Int :=
    match indexOfSub st.fullJsonStr jsonStr with
    | some n => (n : Int)
    | none => -1
  { responseText := st.responseText ++ textChunk
    fullJsonStr := st.fullJsonStr.drop (max 0 (idx + (processedLength : Int))).toNat
    emitted := st.emitted ++ [textChunk] }

/-- Body of one iteration of the `for` loop over `jsonObjects`: parse the
candidate fragment and, when it carries a text payload, emit and advance
via `emitAdvance`. -/
def passStep (total i : Nat) (st : LoopState) (item : List Char) : LoopState :=
  let jsonStr := trimChars item
  if jsonStr = [] then st
  else
    match jsonParse jsonStr with
    | none => st
    | some j =>
        match getTextPayload j with
        | none => st
        | some textChunk => emitAdvance total i st jsonStr textChunk

/-- The `for` loop itself: `jsonObjects` is fixed at the start of the
pass while the buffer mutates underneath it. -/
def passLoop : List (List Char) → Nat → Nat → LoopState → LoopState
  | [], _, _, st => st
  | item :: rest, i, total, st => passLoop rest (i + 1) total (passStep total i st item)

/-- One iteration of the read loop (geminiService.ts lines 247-294):
append the decoded chunk to the buffer, split on `/,?\n/`, drop blank
fragments, and run the parse pass. -/
def processChunk (st : LoopState) (chunk : List Char) : LoopState :=
  let st1 : LoopState := { st with fullJsonStr := st.fullJsonStr ++ chunk }
  let jsonObjects := (splitCN st1.fullJsonStr).filter (fun l => ¬ trimChars l = [])
  passLoop jsonObjects 0 jsonObjects.length st1

/-- State after the reader has delivered all chunks. -/
def loopFinal (chunks : List (List Char)) : LoopState :=
  chunks.foldl processChunk initialLoopState

/-- Matches the lenient pattern `/"text"\s*:\s*"([^"]+)"/` at the head of
the input; on success returns the captured group (non-empty by
construction) and the input after the full match. -/
def matchTextAt (s : List Char) : Option (Char × List Char × List Char) :=
  match s with
  | '"' :: 't' :: 'e' :: 'x' :: 't' :: '"' :: r =>
      match r.dropWhile isJsWs with
      | ':' :: r2 =>
          match r2.dropWhile isJsWs with
          | '"' :: r4 =>
              match r4 with
              | [] => none
              | '"' :: _ => none
              | c0 :: r4' =>
                  let grpTail := r4'.takeWhile (fun c => ¬ c = '"')
                  match r4'.drop grpTail.length with
                  | '"' :: r6 => some (c0, grpTail, r6)
                  | _ => none
          | _ => none
      | _ => none
  | _ => none

/-- Global scan for the salvage pattern, as `String.prototype.match` with
the `g` flag: leftmost matches, non-overlapping.  Each matched text is the
captured group, which is what the source recovers from the full match by
stripping the `"text"\s*:\s*"` prefix and the final quote. -/
def salvageGo : Nat → List Char → List (List Char)
  | 0, _ => []
  | Nat.succ _, [] => []
  | Nat.succ f, c :: rest =>
      match matchTextAt (c :: rest) with
      | some (c0, grpTail, r) => (c0 :: grpTail) :: salvageGo f r
      | none => salvageGo f rest

/-- All texts recovered by the salvage pass over a buffer
(geminiService.ts lines 301-308). -/
def salvageTexts (s : List Char) : List (List Char) := salvageGo (s.length + 1) s

/-- The fixed fallback notice (geminiService.ts line 318). -/
def fallbackResponse : List Char :=
  "I'm sorry, but I couldn't generate a proper response. Please try again or check your API key.".toList

/-- End-of-stream handling (geminiService.ts lines 296-320): if nothing
was emitted, run the salvage pass over the remaining buffer; if still
nothing, emit the single fallback notice. -/
def finishStream (st : LoopState) : LoopState :=
  let st1 :=
    if st.responseText = [] then
      let texts := salvageTexts st.fullJsonStr
      { st with responseText := st.responseText ++ texts.flatten
                emitted := st.emitted ++ texts }
    else st
  if st1.responseText = [] then
    { st1 with emitted := st1.emitted ++ [fallbackResponse] }
  else st1

/-- All fragments delivered to the `onChunk` callback for a given
chunking of the response stream, in order. -/
def runStream (chunks : List (List Char)) : List (List Char) :=
  (finishStream (loopFinal chunks)).emitted

/-!
Credential store (geminiService.ts lines 17-43) and the request-issuing
wrapper of `generateStreamingResponse` (lines 134-237).  The asynchronous
lookups are passed in as their results: `cache` is the module-level
`GEMINI_API_KEY`, `db` the result of `getDefaultApiKey()` (`none` =
`null`), `stored` the result of `localStorage.getItem`.
-/

/-- Resolution order of `getApiKey`: in-memory cache, then database
default key, then locally stored key; an empty string results when all
three are absent (each `if (x)` is a JavaScript truthiness test, so an
empty string behaves like `null`). -/
def getApiKey (cache : List Char) (db stored : Option (List Char)) : List Char :=
  if cache = [] then
    match db with
    | some (c :: cs) => c :: cs
    | _ =>
        match stored with
        | some (c :: cs) => c :: cs
        | _ => []
  else cache

/-- `hasApiKey`: `!!key` on the resolved credential. -/
def hasApiKey (cache : List Char) (db stored : Option (List Char)) : Bool :=
  ¬ getApiKey cache db stored = []

/-- Observable actions of `generateStreamingResponse`, in program order. -/
inductive GsEffect where
  | toastErr
  | fetch
  | callback (s : List Char)
deriving Repr, DecidableEq

inductive GenErr where
  | apiKeyNotSet
  | apiError
  | emptyBody
deriving Repr, DecidableEq

/-- The transport's answer to the generation request: HTTP success flag,
presence of a readable body, and the delivered chunk sequence. -/
structure StreamResponse where
  ok : Bool
  hasBody : Bool
  chunks : List (List Char)

/-- `generateStreamingResponse` (geminiService.ts lines 134-326): resolve
the credential; with none, toast and fail before any network call; then
fetch, surface non-success and missing bodies as errors, and otherwise
deliver `runStream` fragments through the callback. -/
def generateStreamingResponse (cache : List Char) (db stored : Option (List Char))
    (resp : StreamResponse) : List GsEffect × Option GenErr :=
  let apiKey := getApiKey cache db stored
  if apiKey = [] then ([GsEffect.toastErr], some GenErr.apiKeyNotSet)
  else
    if ¬ resp.ok then ([GsEffect.fetch, GsEffect.toastErr], some GenErr.apiError)
    else if ¬ resp.hasBody then ([GsEffect.fetch, GsEffect.toastErr], some GenErr.emptyBody)
    else (GsEffect.fetch :: (runStream resp.chunks).map GsEffect.callback, none)

/-!
Session controller: `handleSubmit` of Index.tsx (lines 105-190).
-/

/-- Observable actions of one `handleSubmit` invocation. -/
inductive SubmitEffect where
  | openApiKeyModal
  | createConv
  | toastErr
  | saveUserMessage (cid : Nat)
  | updateTitle (cid : Nat) (title : List Char)
  | startStream
  | saveAssistantMessage (cid : Nat)
deriving Repr, DecidableEq

/-- Title derivation for the first message of a conversation
(Index.tsx line 100): `content.length > 30 ? content.substring(0, 30) +
'...' : content`, paired with the conversation the title is stored on. -/
def updateConversationTitleWithFirstMessage (cid : Nat) (content : List Char) :
    Nat × List Char :=
  (cid, if content.length > 30 then content.take 30 ++ "...".toList else content)

/-- Effect trace of `handleSubmit` (Index.tsx lines 105-190).
`conversationId` is the state value captured by the invocation's closure;
the `if (conversationId)` tests at lines 133 and 174 read this same
captured value, so a conversation id created inside the call does not
enable them.  `createOk` is the result of `createConversation` when one
is attempted, `firstMessage` is `messages.length === 0`. -/
def handleSubmit (isProcessing hasKey : Bool) (conversationId : Option Nat)
    (createOk : Option Nat) (firstMessage : Bool) (content : List Char) :
    List SubmitEffect :=
  if isProcessing then []
  else if ¬ hasKey then [SubmitEffect.openApiKeyModal]
  else
    match conversationId with
    | none =>
        match createOk with
        | none => [SubmitEffect.createConv, SubmitEffect.toastErr]
        | some _ => [SubmitEffect.createConv, SubmitEffect.startStream]
    | some cid =>
        [SubmitEffect.saveUserMessage cid]
          ++ (if firstMessage then
                [SubmitEffect.updateTitle cid
                  (updateConversationTitleWithFirstMessage cid content).2]
              else [])
          ++ [SubmitEffect.startStream, SubmitEffect.saveAssistantMessage cid]

/-!
Turn-taking: the interleaving of two submissions through `handleSubmit`'s
suspension points.  JavaScript is single-threaded, so each segment between
`await`s is atomic; `isProcessing` is set to `true` only at line 141,
after the user message has been persisted, and reset in the `finally`
block.  A turn therefore sits in `awaitingPersistUser` with
`isProcessing` still `false`.
-/

inductive TurnPhase where
  | idle
  | awaitingPersistUser
  | streaming
  | awaitingPersistAssistant
  | finished
  | rejected
deriving Repr, DecidableEq

structure CtrlState where
  isProcessing : Bool
  turn1 : TurnPhase
  turn2 : TurnPhase
deriving Repr, DecidableEq

/-- The synchronous head of `handleSubmit` (lines 106-112 guard): a
submission is dropped when `isProcessing` is set, otherwise the turn
enters the awaiting-persist-user phase. -/
def submitStep (isProcessing : Bool) (ph : TurnPhase) : TurnPhase :=
  if ¬ ph = TurnPhase.idle then ph
  else if isProcessing then TurnPhase.rejected
  else TurnPhase.awaitingPersistUser

/-- Completion of the turn's current awaited operation: persisting the
user message leads to `setIsProcessing(true)` and streaming (line 141);
stream completion leads to persisting the assistant message; that persist
completing runs the `finally` reset (line 186). -/
def advancePhase : TurnPhase → Bool → TurnPhase × Bool
  | TurnPhase.awaitingPersistUser, _ => (TurnPhase.streaming, true)
  | TurnPhase.streaming, p => (TurnPhase.awaitingPersistAssistant, p)
  | TurnPhase.awaitingPersistAssistant, _ => (TurnPhase.finished, false)
  | ph, p => (ph, p)

inductive CtrlEvent where
  | submit1
  | submit2
  | advance1
  | advance2

def ctrlStep (s : CtrlState) : CtrlEvent → CtrlState
  | CtrlEvent.submit1 => { s with turn1 := submitStep s.isProcessing s.turn1 }
  | CtrlEvent.submit2 => { s with turn2 := submitStep s.isProcessing s.turn2 }
  | CtrlEvent.advance1 =>
      let r := advancePhase s.turn1 s.isProcessing
      { s with turn1 := r.1, isProcessing := r.2 }
  | CtrlEvent.advance2 =>
      let r := advancePhase s.turn2 s.isProcessing
      { s with turn2 := r.1, isProcessing := r.2 }

def ctrlRun (evs : List CtrlEvent) : CtrlState :=
  evs.foldl ctrlStep ⟨false, TurnPhase.idle, TurnPhase.idle⟩

/-!
Conversation store: `deleteConversation` (conversationService, lines
113-137).  The remote relational store is modelled as the visible rows;
a failing delete mutates nothing and makes the call throw, which the
surrounding `catch` converts into a `false` return.
-/

structure Db where
  convs : List Nat
  msgs : List (Nat × Nat)
deriving Repr, DecidableEq

/-- Messages belonging to a conversation. -/
def msgsFor (db : Db) (cid : Nat) : List (Nat × Nat) :=
  db.msgs.filter (fun m => m.2 = cid)

/-- `supabase.from("messages").delete().eq("conversation_id", id)`. -/
def deleteMessagesOp (db : Db) (cid : Nat) : Db :=
  { db with msgs := db.msgs.filter (fun m => ¬ m.2 = cid) }

/-- `supabase.from("conversations").delete().eq("id", id)`. -/
def deleteConvOp (db : Db) (cid : Nat) : Db :=
  { db with convs := db.convs.filter (fun c => ¬ c = cid) }

/-- `deleteConversation`: delete the conversation's messages first; on
error return `false` with nothing else attempted; then delete the
conversation row; on error return `false`; otherwise return `true`.
The first component lists every store state in order, starting with the
initial one. -/
def deleteConversation (db : Db) (cid : Nat) (msgDelOk convDelOk : Bool) :
    List Db × Db × Bool :=
  if ¬ msgDelOk then ([db], db, false)
  else
    let db1 := deleteMessagesOp db cid
    if ¬ convDelOk then ([db, db1], db1, false)
    else ([db, db1, deleteConvOp db1 cid], deleteConvOp db1 cid, true)

/-!
Concrete stream inputs used to settle the claims about the parse loop.
`recHi` is a well-formed response record carrying the text `"hi"`;
`recE` is a well-formed record with no text payload whose value embeds
`recHi` verbatim; the `junk` lines are fragments that never parse.
-/

/-- A complete stream record with text payload `"hi"`. -/
def recHi : List Char :=
  "\x7b\"candidates\":[\x7b\"content\":\x7b\"parts\":[\x7b\"text\":\"hi\"\x7d]\x7d\x7d]\x7d".toList

/-- A line that never parses: the record preceded by junk. -/
def lineJunk : List Char := "junk ".toList ++ recHi

/-- A fixed logical response stream (total byte sequence). -/
def streamTotal : List Char := lineJunk ++ '\n' :: (recHi ++ '\n' :: ['Z'])

/-- First chunking of `streamTotal`: everything up to the second newline,
then `"Z"`. -/
def chunksA : List (List Char) := [lineJunk ++ '\n' :: (recHi ++ ['\n']), ['Z']]

/-- Second chunking of `streamTotal`: one single chunk. -/
def chunksB : List (List Char) := [streamTotal]

/-- A well-formed record with no text payload that embeds `recHi`
verbatim as the value of its only field. -/
def recE : List Char := "\x7b\"z\":".toList ++ recHi ++ "\x7d".toList

/-- A stream delivering `recE`, then `recHi` split across the first two
chunks, then a final newline chunk. -/
def c2chunks : List (List Char) :=
  [recE ++ '\n' :: recHi.take 20, recHi.drop 20 ++ ['\n'], ['\n']]

/-- One chunk: an unparsable line, then a complete record. -/
def c3chunk : List Char := "junk\n".toList ++ recHi ++ ['\n']

/-- The spec's scenario: a record split mid-key across two chunks. -/
def helloChunk1 : List Char := "\x7b\"candidates\":[\x7b\"content\":\x7b\"parts\":[\x7b\"te".toList

def helloChunk2 : List Char := "xt\":\"Hello\"\x7d]\x7d\x7d]\x7d\n".toList

/-- A chunk whose record never completes but whose raw text matches the
salvage pattern. -/
def c4chunk : List Char := "\x7b\"text\": \"Hi\"".toList

/-- Invariant of the read loop relating the accumulated `responseText`
to the trace of callback invocations: `responseText` is their
concatenation and every emitted fragment is non-empty. -/
def goodState (st : LoopState) : Prop :=
  st.responseText = st.emitted.flatten ∧ ∀ t ∈ st.emitted, ¬ t = []

theorem getTextPayload_ne_nil {j : Json} {t : List Char}
    (h : getTextPayload j = some t) : ¬ t = [] := by
  unfold getTextPayload at h
  split at h
  · cases h; simp
  · cases h

theorem passStep_good (total i : Nat) (st : LoopState) (item : List Char)
    (h : goodState st) : goodState (passStep total i st item) := by
  unfold passStep
  dsimp only
  split
  · exact h
  · split
    · exact h
    · split
      · exact h
      · rename_i textChunk ht
        refine ⟨?_, ?_⟩
        · show st.responseText ++ textChunk = (st.emitted ++ [textChunk]).flatten
          rw [List.flatten_append, h.1]
          simp
        · intro x hx
          rcases List.mem_append.1 hx with hx | hx
          · exact h.2 x hx
          · rw [List.mem_singleton] at hx
            subst hx
            exact getTextPayload_ne_nil ht

theorem passLoop_good : ∀ (items : List (List Char)) (i total : Nat) (st : LoopState),
    goodState st → goodState (passLoop items i total st) := by
  intro items
  induction items with
  | nil => intro i total st h; exact h
  | cons item rest ih =>
      intro i total st h
      rw [passLoop]
      exact ih _ _ _ (passStep_good total i st item h)

theorem processChunk_good (st : LoopState) (chunk : List Char) (h : goodState st) :
    goodState (processChunk st chunk) := by
  unfold processChunk
  exact passLoop_good _ _ _ _ ⟨h.1, h.2⟩

theorem foldl_good : ∀ (chunks : List (List Char)) (st : LoopState),
    goodState st → goodState (chunks.foldl processChunk st) := by
  intro chunks
  induction chunks with
  | nil => intro st h; exact h
  | cons c rest ih => intro st h; exact ih _ (processChunk_good st c h)

theorem loopFinal_good (chunks : List (List Char)) : goodState (loopFinal chunks) :=
  foldl_good chunks initialLoopState ⟨rfl, by simp [initialLoopState]⟩

theorem salvageGo_ne_nil :
    ∀ (f : Nat) (s t : List Char), t ∈ salvageGo f s → ¬ t = [] := by
  intro f
  induction f with
  | zero => intro s t ht; simp [salvageGo] at ht
  | succ f ih =>
      intro s t ht
      cases s with
      | nil => simp [salvageGo] at ht
      | cons c rest =>
          rw [salvageGo] at ht
          split at ht
          · rcases List.mem_cons.1 ht with hx | hx
            · subst hx; simp
            · exact ih _ t hx
          · exact ih _ t ht

theorem salvageTexts_ne_nil (s t : List Char) (h : t ∈ salvageTexts s) : ¬ t = [] :=
  salvageGo_ne_nil _ s t h

theorem flatten_ne_nil {l : List (List Char)} (hl : ¬ l = [])
    (h : ∀ t ∈ l, ¬ t = []) : ¬ l.flatten = [] := by
  cases l with
  | nil => exact absurd rfl hl
  | cons t ts =>
      intro hc
      rw [List.flatten_cons] at hc
      exact h t (List.mem_cons_self t ts) (List.append_eq_nil.1 hc).1

theorem finishStream_of_empty (st : LoopState) (h1 : st.responseText = [])
    (h3 : ¬ salvageTexts st.fullJsonStr = []) :
    (finishStream st).emitted = st.emitted ++ salvageTexts st.fullJsonStr := by
  unfold finishStream
  rw [if_pos h1]
  have hne : ¬ (st.responseText ++ (salvageTexts st.fullJsonStr).flatten) = [] := by
    rw [h1, List.nil_append]
    exact flatten_ne_nil h3 (fun t ht => salvageTexts_ne_nil _ t ht)
  rw [if_neg hne]

theorem finishStream_fallback (st : LoopState) (h1 : st.responseText = [])
    (h2 : salvageTexts st.fullJsonStr = []) :
    (finishStream st).emitted = st.emitted ++ [fallbackResponse] := by
  unfold finishStream
  rw [if_pos h1, h2]
  have hz : (st.responseText ++ ([] : List (List Char)).flatten) = [] := by
    rw [h1]; rfl
  rw [if_pos hz]
  simp

theorem finishStream_of_nonempty (st : LoopState) (h : ¬ st.responseText = []) :
    finishStream st = st := by
  unfold finishStream
  rw [if_neg h, if_neg h]

/-- C1: the streaming parse loop is claimed to be chunking-invariant —
for every logical response stream and all chunkings of it, the final
concatenation of emitted fragments is identical.  The code violates this:
`chunksA` and `chunksB` split the same total byte sequence `streamTotal`,
yet the first chunking emits `"hi"` twice (the buffer advance locates the
decoded record at its earlier verbatim occurrence inside the unparsed
junk line, so the record survives in the buffer and is re-emitted on the
next read) while the second emits it once. -/
theorem chunking_invariance_fails :
    chunksA.flatten = streamTotal
    ∧ chunksB.flatten = streamTotal
    ∧ (runStream chunksA).flatten = "hihi".toList
    ∧ (runStream chunksB).flatten = "hi".toList
    ∧ ¬ (runStream chunksA).flatten = (runStream chunksB).flatten := by
  refine ⟨by decide, by decide, by decide, by decide, by decide⟩

/-- C2: a record split across chunks is claimed to be emitted exactly
once.  In `c2chunks` the record `recHi` is delivered exactly once, split
across the first two chunks, yet the loop emits its text twice: the
buffer advance after decoding it locates its verbatim occurrence inside
the earlier textless record `recE`, leaves the real record in the buffer,
and re-emits it on the following read. -/
theorem split_record_emitted_twice :
    c2chunks.flatten = recE ++ '\n' :: (recHi ++ ['\n', '\n'])
    ∧ runStream c2chunks = ["hi".toList, "hi".toList] := by
  refine ⟨by decide, by decide⟩

/-- The spec's positive scenario for C2 does hold: a record split
mid-key across two chunks yields exactly one fragment `"Hello"`. -/
theorem hello_single_fragment :
    runStream [helloChunk1, helloChunk2] = ["Hello".toList] := by decide

/-- C3: the loop is claimed never to discard bytes other than those of a
successfully decoded record plus its one separator.  Processing
`c3chunk`, exactly one record (`recHi`) is decoded, yet the unparsed
fragment `junk` preceding it is discarded from the buffer as well: the
advance `substring(indexOf(jsonStr) + processedLength)` drops the whole
prefix before the decoded record. -/
theorem unparsed_bytes_discarded :
    indexOfSub c3chunk "junk".toList = some 0
    ∧ (loopFinal [c3chunk]).emitted = ["hi".toList]
    ∧ (loopFinal [c3chunk]).fullJsonStr = ['\n']
    ∧ indexOfSub (loopFinal [c3chunk]).fullJsonStr "junk".toList = none := by
  refine ⟨by decide, by decide, by decide, by decide⟩

/-- C7: a new submission is claimed to be rejected whenever the prior
turn is not Idle.  The code sets `isProcessing` only after the user
message has been persisted, so a second submission arriving while the
first turn is in `awaitingPersistUser` passes the guard: after
`[submit1, submit2]` both turns are accepted (neither is `rejected`),
and advancing both leads to two concurrent streaming turns. -/
theorem busy_guard_gap :
    (ctrlRun [CtrlEvent.submit1]).turn1 = TurnPhase.awaitingPersistUser
    ∧ (ctrlRun [CtrlEvent.submit1, CtrlEvent.submit2]).turn1
        = TurnPhase.awaitingPersistUser
    ∧ (ctrlRun [CtrlEvent.submit1, CtrlEvent.submit2]).turn2
        = TurnPhase.awaitingPersistUser
    ∧ (ctrlRun [CtrlEvent.submit1, CtrlEvent.submit2,
        CtrlEvent.advance1, CtrlEvent.advance2]).turn1 = TurnPhase.streaming
    ∧ (ctrlRun [CtrlEvent.submit1, CtrlEvent.submit2,
        CtrlEvent.advance1, CtrlEvent.advance2]).turn2 = TurnPhase.streaming := by
  refine ⟨by decide, by decide, by decide, by decide, by decide⟩

/-- C4: for every stream run in which the loop emitted nothing, if the
remaining buffer contains at least one match of the lenient text-field
pattern, the salvage pass emits exactly the matched texts through the
callback. -/
theorem salvage_pass_emits (chunks : List (List Char))
    (hloop : (loopFinal chunks).emitted = [])
    (hsal : ¬ salvageTexts (loopFinal chunks).fullJsonStr = []) :
    runStream chunks = salvageTexts (loopFinal chunks).fullJsonStr := by
  have hg := loopFinal_good chunks
  have hrt : (loopFinal chunks).responseText = [] := by
    rw [hg.1, hloop]; rfl
  unfold runStream
  rw [finishStream_of_empty _ hrt hsal, hloop]
  rfl

/-- Witness for C4: a stream whose only record never completes; the loop
emits nothing, the salvage pattern matches, and `"Hi"` is emitted. -/
theorem salvage_pass_emits_witness :
    (loopFinal [c4chunk]).emitted = []
    ∧ ¬ salvageTexts (loopFinal [c4chunk]).fullJsonStr = []
    ∧ runStream [c4chunk] = ["Hi".toList] := by
  refine ⟨by decide, by decide, ?_⟩
  rw [salvage_pass_emits [c4chunk] (by decide) (by decide)]
  decide

/-- C5: if neither the parse loop nor the salvage pass emitted any text,
exactly one fixed fallback notice fragment is emitted; if any text was
emitted — by the loop or by the salvage pass — no fallback fragment is
appended. -/
theorem fallback_guarantee (chunks : List (List Char)) :
    ((loopFinal chunks).emitted = [] →
        salvageTexts (loopFinal chunks).fullJsonStr = [] →
        runStream chunks = [fallbackResponse])
    ∧ (¬ (loopFinal chunks).emitted = [] →
        runStream chunks = (loopFinal chunks).emitted)
    ∧ ((loopFinal chunks).emitted = [] →
        ¬ salvageTexts (loopFinal chunks).fullJsonStr = [] →
        runStream chunks = salvageTexts (loopFinal chunks).fullJsonStr) := by
  have hg := loopFinal_good chunks
  refine ⟨?_, ?_, ?_⟩
  · intro hloop hsal
    have hrt : (loopFinal chunks).responseText = [] := by
      rw [hg.1, hloop]; rfl
    unfold runStream
    rw [finishStream_fallback _ hrt hsal, hloop]
    rfl
  · intro hne
    have hrt : ¬ (loopFinal chunks).responseText = [] := by
      rw [hg.1]
      exact flatten_ne_nil hne hg.2
    unfold runStream
    rw [finishStream_of_nonempty _ hrt]
  · intro hloop hsal
    have hrt : (loopFinal chunks).responseText = [] := by
      rw [hg.1, hloop]; rfl
    unfold runStream
    rw [finishStream_of_empty _ hrt hsal, hloop]
    rfl

/-- Witness for C5: the empty stream emits nothing and salvages nothing,
so exactly the fallback notice is delivered. -/
theorem fallback_guarantee_witness :
    runStream [] = [fallbackResponse] :=
  (fallback_guarantee []).1 rfl rfl

/-- C6: with an empty resolved credential, `generateStreamingResponse`
fails with the missing-credential error before any fetch and before any
callback invocation; `hasApiKey()` is false; and a submission with the
key absent only opens the credential-entry modal — the message is neither
persisted nor sent. -/
theorem missing_credential_failure (cache : List Char) (db stored : Option (List Char))
    (resp : StreamResponse) (h : getApiKey cache db stored = []) :
    (generateStreamingResponse cache db stored resp).2 = some GenErr.apiKeyNotSet
    ∧ ¬ GsEffect.fetch ∈ (generateStreamingResponse cache db stored resp).1
    ∧ (∀ s, ¬ GsEffect.callback s ∈ (generateStreamingResponse cache db stored resp).1)
    ∧ hasApiKey cache db stored = false
    ∧ (∀ (conversationId createOk : Option Nat) (firstMessage : Bool)
        (content : List Char),
        handleSubmit false (hasApiKey cache db stored) conversationId createOk
            firstMessage content
          = [SubmitEffect.openApiKeyModal]) := by
  have hkey : hasApiKey cache db stored = false := by
    simp [hasApiKey, h]
  have hgs : generateStreamingResponse cache db stored resp
      = ([GsEffect.toastErr], some GenErr.apiKeyNotSet) := by
    unfold generateStreamingResponse
    rw [h]
    simp
  refine ⟨by rw [hgs], by rw [hgs]; simp, fun s => by rw [hgs]; simp, hkey, ?_⟩
  intro conversationId createOk firstMessage content
  rw [hkey]
  simp [handleSubmit]

/-- Witness for C6: every lookup empty. -/
theorem missing_credential_failure_witness :
    (generateStreamingResponse [] none none ⟨true, true, []⟩).2
        = some GenErr.apiKeyNotSet
    ∧ hasApiKey [] none none = false
    ∧ handleSubmit false (hasApiKey [] none none) none none false []
        = [SubmitEffect.openApiKeyModal] :=
  ⟨(missing_credential_failure [] none none ⟨true, true, []⟩ rfl).1,
   (missing_credential_failure [] none none ⟨true, true, []⟩ rfl).2.2.2.1,
   (missing_credential_failure [] none none ⟨true, true, []⟩ rfl).2.2.2.2
      none none false []⟩

/-- All messages of a conversation are removed before its row: filtering
out a conversation's messages leaves none of them behind. -/
theorem filter_out_msgs (cid : Nat) :
    ∀ l : List (Nat × Nat),
      (l.filter (fun m => ¬ m.2 = cid)).filter (fun m => m.2 = cid) = [] := by
  intro l
  induction l with
  | nil => rfl
  | cons m rest ih =>
      by_cases hm : m.2 = cid
      · simp [List.filter, hm, ih]
      · simp [List.filter, hm, ih]

/-- C8: in every execution of `deleteConversation`, the conversation's
messages are removed before the conversation row: any intermediate store
state no longer listing the conversation also holds none of its messages,
and in the successful run the state after the first delete still lists
the conversation while its messages are already gone. -/
theorem deletion_ordering (db : Db) (cid : Nat) (mOk cOk : Bool)
    (hc : cid ∈ db.convs) :
    (∀ s ∈ (deleteConversation db cid mOk cOk).1,
        cid ∉ s.convs → msgsFor s cid = [])
    ∧ (mOk = true → cOk = true →
        (deleteConversation db cid mOk cOk).1
          = [db, deleteMessagesOp db cid,
             deleteConvOp (deleteMessagesOp db cid) cid]
        ∧ cid ∈ (deleteMessagesOp db cid).convs
        ∧ msgsFor (deleteMessagesOp db cid) cid = []
        ∧ cid ∉ (deleteConvOp (deleteMessagesOp db cid) cid).convs) := by
  have hmsg : msgsFor (deleteMessagesOp db cid) cid = [] := by
    unfold msgsFor deleteMessagesOp
    exact filter_out_msgs cid db.msgs
  constructor
  · intro s hs hnot
    cases mOk <;> cases cOk <;> simp [deleteConversation] at hs
    · rcases hs with rfl
      exact absurd hc hnot
    · rcases hs with rfl
      exact absurd hc hnot
    · rcases hs with rfl | rfl
      · exact absurd hc hnot
      · exact hmsg
    · rcases hs with rfl | rfl | rfl
      · exact absurd hc hnot
      · exact hmsg
      · exact hmsg
  · intro hm hk
    subst hm; subst hk
    refine ⟨by simp [deleteConversation], hc, hmsg, ?_⟩
    simp [deleteConvOp]

/-- Witness for C8: a store with one conversation and two messages, one
of them belonging to the conversation being deleted. -/
theorem deletion_ordering_witness :
    (1 : Nat) ∈ (Db.mk [1] [(5, 1), (6, 2)]).convs
    ∧ msgsFor (deleteMessagesOp (Db.mk [1] [(5, 1), (6, 2)]) 1) 1 = []
    ∧ (deleteConversation (Db.mk [1] [(5, 1), (6, 2)]) 1 true true).2.2 = true :=
  ⟨by decide,
   ((deletion_ordering (Db.mk [1] [(5, 1), (6, 2)]) 1 true true (by decide)).2
      rfl rfl).2.2.1,
   by decide⟩

/-- C9: the stored title is the message itself when its length is at
most 30 units, and the first 30 units followed by an ellipsis when
longer; an input of exactly 30 units is stored unmodified. -/
theorem title_derivation (cid : Nat) (content : List Char) :
    (content.length ≤ 30 →
        (updateConversationTitleWithFirstMessage cid content).2 = content)
    ∧ (content.length > 30 →
        (updateConversationTitleWithFirstMessage cid content).2
          = content.take 30 ++ "...".toList)
    ∧ (content.length = 30 →
        (updateConversationTitleWithFirstMessage cid content).2 = content) := by
  unfold updateConversationTitleWithFirstMessage
  refine ⟨fun h => ?_, fun h => ?_, fun h => ?_⟩
  · rw [if_neg (by omega)]
  · rw [if_pos h]
  · rw [if_neg (by omega)]

/-- Witness for C9: a 30-unit input is stored unmodified and a 31-unit
input is truncated to 30 units plus the ellipsis. -/
theorem title_derivation_witness :
    (updateConversationTitleWithFirstMessage 1 (List.replicate 30 'a')).2
      = List.replicate 30 'a'
    ∧ (updateConversationTitleWithFirstMessage 1 (List.replicate 31 'a')).2
      = (List.replicate 31 'a').take 30 ++ "...".toList :=
  ⟨(title_derivation 1 (List.replicate 30 'a')).2.2 (by decide),
   (title_derivation 1 (List.replicate 31 'a')).2.1 (by decide)⟩

/-- C10: if deleting the conversation's messages fails, the store is
left untouched, no conversation-row delete is attempted (the state trace
is just the initial state) and the call returns `false`; the call
returns `true` exactly when both deletes succeed. -/
theorem delete_conversation_atomic (db : Db) (cid : Nat) (mOk cOk : Bool) :
    deleteConversation db cid false cOk = ([db], db, false)
    ∧ ((deleteConversation db cid mOk cOk).2.2 = true ↔ mOk = true ∧ cOk = true) := by
  constructor
  · simp [deleteConversation]
  · cases mOk <;> cases cOk <;> simp [deleteConversation]
